import Mathlib

/-!
Shallow embedding of the marketplace-monitoring program (files
`time_management.py`, `telegram.py`, `new_main.py`) and verification of the
frozen claims about it.

Conventions of the embedding:
* Python `datetime` values in a location's local timezone are modelled by
  `LocalDT` (year/month/day/hour/minute/second); all functions that read the
  wall clock take the current local datetime as an explicit parameter.
* Python exceptions are modelled with `Except String`.
* Machine strings are Lean `String`s; `str.lower()` is modelled by mapping
  `Char.toLower` over the characters (an ASCII-faithful model).
* Python dictionaries are association lists with the update function `aset`
  (overwrite in place, insert at the end); Python sets are lists with
  membership-checked insertion.
* Collaborators outside the claims' scope (the Telegram transport, the
  product classifier, the schedule computation as seen from `new_main.py`)
  are oracle parameters, so every function stays a total, executable
  function of its inputs.
-/

/-- Model of Python `str.lower()` (ASCII-faithful). -/
def lowerStr (s : String) : String := ⟨s.data.map Char.toLower⟩

namespace TimeManagement

/-- A local date-time (to second resolution), standing for a Python
`datetime` already converted into the location's timezone. -/
structure LocalDT where
  year : Nat
  month : Nat
  day : Nat
  hour : Nat
  minute : Nat
  second : Nat
deriving DecidableEq

/-- The time-of-day of a `LocalDT` in seconds, used for the `time`-object
comparisons `start_inactive <= current_time` and
`current_time <= end_inactive` in `time_management.py`. -/
def secondsOfDay (dt : LocalDT) : Nat := dt.hour * 3600 + dt.minute * 60 + dt.second

/-- `time(22, 0)`, the start of the inactive window, in seconds of day. -/
def startInactiveS : Nat := 22 * 3600

/-- `time(6, 30)`, the end of the inactive window, in seconds of day. -/
def endInactiveS : Nat := 6 * 3600 + 30 * 60

/-- Gregorian leap-year rule, as used by Python `datetime`. -/
def isLeapYear (y : Nat) : Bool := (y % 4 == 0 && y % 100 != 0) || (y % 400 == 0)

/-- Number of days in a month, as used by Python `datetime` validity checks. -/
def daysInMonth (y m : Nat) : Nat :=
  if m = 2 then (if isLeapYear y then 29 else 28)
  else if m = 4 ∨ m = 6 ∨ m = 9 ∨ m = 11 then 30
  else 31

/-- Model of Python `datetime.replace(day=d)`: raises
`ValueError: day is out of range for month` when `d` is not a valid day of
the datetime's year and month. -/
def replaceDay (dt : LocalDT) (d : Nat) : Except String LocalDT :=
  if 1 ≤ d ∧ d ≤ daysInMonth dt.year dt.month then Except.ok { dt with day := d }
  else Except.error "day is out of range for month"

/-- Model of `datetime.replace(hour=h, minute=mi, second=0)` (always valid
for the hour/minute constants used by the program). -/
def replaceTime (dt : LocalDT) (h mi : Nat) : LocalDT :=
  { dt with hour := h, minute := mi, second := 0 }

/-- Two-digit zero-padded decimal, as in `strftime` fields. -/
def pad2 (n : Nat) : String := if n < 10 then "0" ++ toString n else toString n

/-- Four-digit zero-padded decimal, as in `strftime("%Y")`. -/
def pad4 (n : Nat) : String :=
  if n < 10 then "000" ++ toString n
  else if n < 100 then "00" ++ toString n
  else if n < 1000 then "0" ++ toString n
  else toString n

/-- `strftime("%H:%M")` of a datetime's time-of-day. -/
def fmtHM (dt : LocalDT) : String := pad2 dt.hour ++ ":" ++ pad2 dt.minute

/-- `strftime("%Y-%m-%d %H:%M:%S")`. -/
def fmtFull (dt : LocalDT) : String :=
  pad4 dt.year ++ "-" ++ pad2 dt.month ++ "-" ++ pad2 dt.day ++ " " ++
    pad2 dt.hour ++ ":" ++ pad2 dt.minute ++ ":" ++ pad2 dt.second

/-- `LOCATION_TIMEZONES` from `time_management.py`, mapping lowercase
location keys to timezone names. -/
def LOCATION_TIMEZONES : List (String × String) :=
  [("melbourne", "Australia/Melbourne"), ("brisbane", "Australia/Brisbane")]

/-- `get_location_timezone`: lowercase lookup with UTC as the default
timezone; we track the timezone by its name string. -/
def getLocationTimezone (location : String) : String :=
  match LOCATION_TIMEZONES.find? (fun p => p.1 == lowerStr location) with
  | some p => p.2
  | none => "UTC"

/-- The `(is_active, reason, next_change_time)` triple returned by
`is_monitoring_active`. -/
structure ActiveResult where
  is_active : Bool
  reason : String
  next_change : LocalDT
deriving DecidableEq

/-- Embedding of `is_monitoring_active(location)` from `time_management.py`,
with the current local datetime of the location passed explicitly.
Mirrors the source: inactive when `start_inactive <= current_time or
current_time <= end_inactive`; in the inactive branch the next active time
is today at 06:30, moved to `day + 1` via `datetime.replace` when
`current_time > end_inactive`; otherwise active with the next inactive time
today at 22:00. -/
def isMonitoringActive (location : String) (now : LocalDT) : Except String ActiveResult :=
  let cur := secondsOfDay now
  if startInactiveS ≤ cur ∨ cur ≤ endInactiveS then
    let base := replaceTime now 6 30
    let reason := "Nighttime hours in " ++ location ++ " (local time: " ++ fmtHM now ++
      "). Resuming at 06:30"
    if endInactiveS < cur then
      match replaceDay base (now.day + 1) with
      | Except.ok n => Except.ok ⟨false, reason, n⟩
      | Except.error e => Except.error e
    else
      Except.ok ⟨false, reason, base⟩
  else
    Except.ok ⟨true, "Daytime hours in " ++ location ++ " (local time: " ++ fmtHM now ++ ")",
      replaceTime now 22 0⟩

/-- The schedule dictionary returned by `get_monitoring_schedule`. -/
structure ScheduleInfo where
  location : String
  timezone : String
  local_time : String
  is_active : Bool
  next_change : String
  next_status : String
  active_hours : String
deriving DecidableEq

/-- Embedding of `get_monitoring_schedule(location)` from
`time_management.py`, with the current local datetime passed explicitly.
`is_active = not (start_inactive <= current_time or current_time <=
end_inactive)`; when inactive the next change is 06:30, moved to `day + 1`
via `datetime.replace` when `current_time > end_inactive`. -/
def getMonitoringSchedule (location : String) (now : LocalDT) : Except String ScheduleInfo :=
  let cur := secondsOfDay now
  if startInactiveS ≤ cur ∨ cur ≤ endInactiveS then
    let base := replaceTime now 6 30
    if endInactiveS < cur then
      match replaceDay base (now.day + 1) with
      | Except.ok n =>
        Except.ok ⟨location, getLocationTimezone location, fmtFull now, false,
          fmtFull n, "active", "06:30 - 22:00"⟩
      | Except.error e => Except.error e
    else
      Except.ok ⟨location, getLocationTimezone location, fmtFull now, false,
        fmtFull base, "active", "06:30 - 22:00"⟩
  else
    Except.ok ⟨location, getLocationTimezone location, fmtFull now, true,
      fmtFull (replaceTime now 22 0), "inactive", "06:30 - 22:00"⟩

/-- Projection: the `is_active` component of an `is_monitoring_active`
result, `none` when the call raised. -/
def activeOf (r : Except String ActiveResult) : Option Bool :=
  match r with
  | Except.ok a => some a.is_active
  | Except.error _ => none

end TimeManagement

namespace Telegram

/-- Embedding of the retry loop `for attempt in range(3)` shared by
`send_message` and `edit_message` in `telegram.py`.  `transport i` is the
outcome of the i-th call to the Telegram API (`none` models a raised
`TelegramError`, which the source catches).  The arguments are the number
of remaining iterations and the current attempt index; the result is the
value returned out of the loop (`none` when every attempt failed), the
number of attempts made, and the list of backoff sleeps performed, in
order.  A sleep of `2 ^ (attempt + 1)` seconds happens after a failed
attempt only when `attempt < 2`. -/
def runAttempts {α : Type} (transport : Nat → Option α) : Nat → Nat → Option α × Nat × List Nat
  | 0, _ => (none, 0, [])
  | r + 1, i =>
    match transport i with
    | some v => (some v, 1, [])
    | none =>
      let s := if i < 2 then [2 ^ (i + 1)] else []
      let rest := runAttempts transport r (i + 1)
      (rest.1, rest.2.1 + 1, s ++ rest.2.2)

/-- Embedding of `send_message` from `telegram.py`: up to 3 attempts
starting at attempt 0; returns the sent message object on the first
success and `None` after all attempts failed, together with the observable
attempt count and backoff sleeps. -/
def sendMessage {α : Type} (transport : Nat → Option α) : Option α × Nat × List Nat :=
  runAttempts transport 3 0

/-- Embedding of `edit_message` from `telegram.py`: the same retry loop,
returning `True` on the first successful edit and `False` after all
attempts failed. -/
def editMessage (transport : Nat → Bool) : Bool × Nat × List Nat :=
  let r := runAttempts (fun i => if transport i then some () else none) 3 0
  (r.1.isSome, r.2.1, r.2.2)

end Telegram

namespace NewMain

/-- Boolean test that `n` starts `h` (character lists). -/
def leadsWith : List Char → List Char → Bool
  | [], _ => true
  | _ :: _, [] => false
  | a :: xs, b :: ys => a == b && leadsWith xs ys

/-- Boolean substring test on character lists, the model of Python's
`needle in hay` on strings. -/
def containsSeq : List Char → List Char → Bool
  | [], needle => needle.isEmpty
  | c :: t, needle => leadsWith needle (c :: t) || containsSeq t needle

/-- Characters of `s.lower()`. -/
def lowerChars (s : String) : List Char := s.data.map Char.toLower

/-- The exclusion test of `check_marketplace_pair`:
`any(word.lower() in title.lower() for word in excluded_words)`. -/
def excludedHit (excluded : List String) (title : String) : Bool :=
  excluded.any (fun w => containsSeq (lowerChars title) (lowerChars w))

/-- The three per-user mode flags fetched from the `user_modes` table
(DB integers 0/1, modelled as booleans since only truthiness is used). -/
structure Modes where
  mode_only_preferred : Bool
  near_good_deals : Bool
  good_deals : Bool
deriving DecidableEq

/-- One subscriber record of `user_pair_map`, as built by
`generate_pairs_and_log`: chat id, excluded words, fixed coordinates
(opaque integers in the model; the claims do not compute with them), and
modes. -/
structure SubUser where
  chat_id : Nat
  excluded_words : List String
  fixed_lat : Int
  fixed_lon : Int
  modes : Modes
deriving DecidableEq

/-- The dictionary returned by the `product_checker` collaborator, with the
fields `check_marketplace_pair` reads: `preferred` may be absent (`None`),
and the two deal flags default to `False` via `.get`. -/
structure CheckResult where
  product_name : String
  preferred : Option Int
  is_good_deal : Bool
  near_good_deal : Bool
deriving DecidableEq

/-- The `product_checker(chat_id, title, price)` collaborator as an oracle. -/
def Checker : Type := Nat → String → String → CheckResult

/-- Outcome of processing one subscriber for one listing: skipped by the
exclusion filter, skipped by one of the three mode filters (named by the
first unmet filter in evaluation order), or sent the partial message. -/
inductive UserOutcome where
  | excludedWord
  | skipNotPreferred
  | skipNotNearGoodDeal
  | skipNotGoodDeal
  | send (text : String)
deriving DecidableEq

/-- The `deal_message` banner of `check_marketplace_pair`. -/
def dealMessage (r : CheckResult) : String :=
  if r.is_good_deal then "✅ Good Deal @ "
  else if r.near_good_deal then "⚠️ Near Good Deal @ "
  else ""

/-- Embedding of the per-subscriber body of the listing loop in
`check_marketplace_pair` (`new_main.py`): first the excluded-word filter
(before any classifier call), then `product_checker`, then the three mode
filters in the source's order (`mode_only_preferred` requiring
`preferred == 1`, `near_good_deals` requiring a good or near-good deal,
`good_deals` requiring a good deal), and finally the partial message send.
The boolean in the result records whether `product_checker` was invoked. -/
def processUser (checker : Checker) (title price link : String) (u : SubUser) :
    Bool × UserOutcome :=
  if excludedHit u.excluded_words title then (false, UserOutcome.excludedWord)
  else
    let result := checker u.chat_id title price
    if u.modes.mode_only_preferred && !(result.preferred == some 1) then
      (true, UserOutcome.skipNotPreferred)
    else if u.modes.near_good_deals && !(result.is_good_deal || result.near_good_deal) then
      (true, UserOutcome.skipNotNearGoodDeal)
    else if u.modes.good_deals && !result.is_good_deal then
      (true, UserOutcome.skipNotGoodDeal)
    else
      (true, UserOutcome.send (dealMessage result ++ "For " ++ price ++
        "\nLink: https://www.facebook.com" ++ link))

/-- One scraped listing as `check_marketplace_pair` sees it: the `href` of
the link element (`none` when the element or attribute is missing), and the
stripped texts of the price and title elements (`none` when the element is
missing). -/
structure RawListing where
  link? : Option String
  price? : Option String
  title? : Option String
deriving DecidableEq

/-- A listing passes the source's two guards (`link_element and
price_element and title_element` present, and `link` truthy — Python treats
the empty string as falsy). -/
def RawListing.wellFormed (l : RawListing) : Bool :=
  l.link?.isSome && l.price?.isSome && l.title?.isSome && !(l.link?.getD "" == "")

/-- The listing's link string (meaningful only when well-formed). -/
def RawListing.linkv (l : RawListing) : String := l.link?.getD ""

/-- The listing's price text. -/
def RawListing.pricev (l : RawListing) : String := l.price?.getD ""

/-- The listing's title text. -/
def RawListing.titlev (l : RawListing) : String := l.title?.getD ""

/-- One notification attempt: the subscriber's chat id, the listing link it
is about, and the partial message text. -/
structure Send where
  chat_id : Nat
  link : String
  text : String
deriving DecidableEq

/-- The mutable state threaded through `check_marketplace_pair` for one
work item: the shared `seen_listings` set and this pair's `first_run`
flag. -/
structure PollState where
  seen : List String
  firstRun : Bool
deriving DecidableEq

/-- `seen_listings.add(link)` (set insertion). -/
def addSeen (s : List String) (l : String) : List String := if l ∈ s then s else l :: s

/-- Embedding of the body of the listing loop of `check_marketplace_pair`
for one listing: skip malformed listings; on a first run store the link and
send nothing; skip links already in `seen_listings`; otherwise record the
link and collect one notification per subscriber that passes `processUser`.
The later detail-page edit phase changes no recipients, so notifications
are the sends collected here. -/
def processListing (checker : Checker) (users : List SubUser) (st : PollState)
    (l : RawListing) : PollState × List Send :=
  if !(l.wellFormed) then (st, [])
  else if st.firstRun then ({ st with seen := addSeen st.seen l.linkv }, [])
  else if l.linkv ∈ st.seen then (st, [])
  else
    ({ st with seen := addSeen st.seen l.linkv },
      users.filterMap (fun u =>
        match processUser checker l.titlev l.pricev l.linkv u with
        | (_, UserOutcome.send txt) => some ⟨u.chat_id, l.linkv, txt⟩
        | _ => none))

/-- The listing loop over one poll's scraped listings. -/
def processListings (checker : Checker) (users : List SubUser) :
    PollState → List RawListing → PollState × List Send
  | st, [] => (st, [])
  | st, l :: ls =>
    let r1 := processListing checker users st l
    let r2 := processListings checker users r1.1 ls
    (r2.1, r1.2 ++ r2.2)

/-- One complete poll of `check_marketplace_pair` on its success path: the
listing loop followed by `first_run[pair] = False`. -/
def processPoll (checker : Checker) (users : List SubUser) (st : PollState)
    (ls : List RawListing) : PollState × List Send :=
  let r := processListings checker users st ls
  ({ r.1 with firstRun := false }, r.2)

/-- A sequence of polls of the same work item, threading `seen_listings`
and `first_run` and concatenating the notifications. -/
def runPolls (checker : Checker) (users : List SubUser) :
    PollState → List (List RawListing) → PollState × List Send
  | st, [] => (st, [])
  | st, p :: ps =>
    let r1 := processPoll checker users st p
    let r2 := runPolls checker users r1.1 ps
    (r2.1, r1.2 ++ r2.2)

/-- Dictionary lookup on an association list. -/
def alookup {κ α : Type} [DecidableEq κ] : List (κ × α) → κ → Option α
  | [], _ => none
  | (k, v) :: t, k' => if k = k' then some v else alookup t k'

/-- Dictionary assignment `m[k] = v`: overwrite in place, insert at the
end, as a Python dict does. -/
def aset {κ α : Type} [DecidableEq κ] : List (κ × α) → κ → α → List (κ × α)
  | [], k, v => [(k, v)]
  | (k0, v0) :: t, k, v => if k0 = k then (k, v) :: t else (k0, v0) :: aset t k v

/-- A calendar date, the result of Python `.date()` or of
`strptime(s, "%Y-%m-%d").date()`. -/
structure Date where
  y : Nat
  m : Nat
  d : Nat
deriving DecidableEq

/-- Python date comparison `a < b` (lexicographic on year, month, day). -/
def dateLt (a b : Date) : Bool :=
  a.y < b.y || (a.y == b.y && (a.m < b.m || (a.m == b.m && a.d < b.d)))

/-- A `LOCATION_STATUS` entry, restricted to the fields `new_main.py`
reads or stores from the `get_monitoring_schedule` dictionary. -/
structure LocStatus where
  is_active : Bool
  next_change : String
  next_status : String
deriving DecidableEq

/-- One user row of the users database as `generate_pairs_and_log` consumes
it: the `expiry_date` field is the already-parsed calendar date (the
claims' scope is records whose date string is well-formed), and
`activation_status` is the row's truthiness. -/
structure GenUser where
  user_id : Nat
  activation_status : Bool
  expiry_date : Date
  keywords : List String
  location : String
  excluded_words : List String
  fixed_lat : Int
  fixed_lon : Int
  modes : Modes
deriving DecidableEq

/-- The subscriber dictionary `generate_pairs_and_log` appends to
`user_pair_map[pair]`. -/
def mkConfig (u : GenUser) : SubUser :=
  ⟨u.user_id, u.excluded_words, u.fixed_lat, u.fixed_lon, u.modes⟩

/-- The state built by `generate_pairs_and_log`: the `pairs` set, the
`active_pairs` set, `user_pair_map`, `LOCATION_USERS` and
`LOCATION_STATUS`. -/
structure GenState where
  pairs : List (String × String)
  activePairs : List (String × String)
  userPairMap : List ((String × String) × List SubUser)
  locationUsers : List (String × List Nat)
  locationStatus : List (String × LocStatus)
deriving DecidableEq

/-- Set insertion into `pairs` and `active_pairs`. -/
def addPair (s : List (String × String)) (p : String × String) : List (String × String) :=
  if p ∈ s then s else s ++ [p]

/-- `user_pair_map[pair].append(config)` (defaultdict of lists). -/
def addConfig (m : List ((String × String) × List SubUser)) (p : String × String)
    (c : SubUser) : List ((String × String) × List SubUser) :=
  match alookup m p with
  | some cs => aset m p (cs ++ [c])
  | none => aset m p [c]

/-- `LOCATION_USERS[location.lower()].add(chat_id)` (defaultdict of sets). -/
def addLocUser (m : List (String × List Nat)) (k : String) (uid : Nat) :
    List (String × List Nat) :=
  match alookup m k with
  | some us => aset m k (if uid ∈ us then us else us ++ [uid])
  | none => aset m k [uid]

/-- The `LOCATION_STATUS` refresh inside the keyword loop of
`generate_pairs_and_log`: store `get_monitoring_schedule(location)` (the
`schedule` oracle) when the lowered key is absent or its recorded
`is_active` differs from the fresh `is_monitoring_active` value (the
`fresh` oracle). -/
def statusUpd (fresh : String → TimeManagement.ActiveResult)
    (schedule : String → LocStatus) (location : String)
    (ls : List (String × LocStatus)) : List (String × LocStatus) :=
  match alookup ls (lowerStr location) with
  | none => aset ls (lowerStr location) (schedule location)
  | some r =>
    if r.is_active != (fresh location).is_active then
      aset ls (lowerStr location) (schedule location)
    else ls

/-- The body of `for keyword in keywords` in `generate_pairs_and_log`: add
the pair, refresh `LOCATION_STATUS`, add to `active_pairs` when monitoring
is active, and append the subscriber config to `user_pair_map[pair]`.  The
record updates touch disjoint fields, so they are written as one record
expression. -/
def genKeywordStep (fresh : String → TimeManagement.ActiveResult)
    (schedule : String → LocStatus) (u : GenUser) (st : GenState) (kw : String) : GenState :=
  { pairs := addPair st.pairs (kw, u.location)
    activePairs := if (fresh u.location).is_active then
        addPair st.activePairs (kw, u.location)
      else st.activePairs
    userPairMap := addConfig st.userPairMap (kw, u.location) (mkConfig u)
    locationUsers := st.locationUsers
    locationStatus := statusUpd fresh schedule u.location st.locationStatus }

/-- The body of `for user in users` in `generate_pairs_and_log`: skip the
user when `not activation_status or expiry_date_obj < today`; otherwise add
the user to `LOCATION_USERS[location.lower()]` and run the keyword loop. -/
def genStep (today : Date) (fresh : String → TimeManagement.ActiveResult)
    (schedule : String → LocStatus) (st : GenState) (u : GenUser) : GenState :=
  if !u.activation_status || dateLt u.expiry_date today then st
  else
    u.keywords.foldl (genKeywordStep fresh schedule u)
      { st with locationUsers := addLocUser st.locationUsers (lowerStr u.location) u.user_id }

/-- Embedding of `generate_pairs_and_log(users)`: `LOCATION_USERS` is
cleared first, `LOCATION_STATUS` persists from the previous cycle, and the
user loop runs over the users in order.  The trailing log-file write and
snapshot save have no effect on the returned state. -/
def generatePairsAndLog (today : Date) (fresh : String → TimeManagement.ActiveResult)
    (schedule : String → LocStatus) (locationStatus : List (String × LocStatus))
    (users : List GenUser) : GenState :=
  users.foldl (genStep today fresh schedule) ⟨[], [], [], [], locationStatus⟩

/-- The subscriber configs recorded under a pair (empty when absent). -/
def configsOf (m : List ((String × String) × List SubUser)) (p : String × String) :
    List SubUser := (alookup m p).getD []

/-- The chat ids recorded under a location key (empty when absent). -/
def usersOf (m : List (String × List Nat)) (k : String) : List Nat := (alookup m k).getD []

/-- One step of the fold modelling Python `str.title()`: the flag records
whether the previous character was alphabetic. -/
def titleStep (acc : Bool × List Char) (c : Char) : Bool × List Char :=
  (c.isAlpha, acc.2 ++ [if c.isAlpha then (if acc.1 then c.toLower else c.toUpper) else c])

/-- Model of Python `str.title()` (ASCII-faithful). -/
def titleCase (s : String) : String := ⟨(s.data.foldl titleStep (false, [])).2⟩

/-- `next_change_time.strftime('%H:%M') if next_change_time else 'Unknown'`. -/
def fmtNextChange (nct : Option TimeManagement.LocalDT) : String :=
  match nct with
  | some t => TimeManagement.fmtHM t
  | none => "Unknown"

/-- The message text built by `notify_status_change` for a resumed or
paused location. -/
def statusMessage (location : String) (is_active : Bool) (reason : String)
    (nct : Option TimeManagement.LocalDT) : String :=
  if is_active then
    "📢 Monitoring has been resumed for " ++ titleCase location ++ ".\nReason: " ++ reason
      ++ "\nWill stop at: " ++ fmtNextChange nct
  else
    "🛑 Monitoring has been paused for " ++ titleCase location ++ ".\nReason: " ++ reason
      ++ "\nWill resume at: " ++ fmtNextChange nct

/-- Embedding of `notify_status_change(location, is_active, reason,
next_change_time)`: returns early when the location has no
`LOCATION_USERS` entry, otherwise one message per subscribed chat id. -/
def notifyStatusChange (locationUsers : List (String × List Nat)) (location : String)
    (is_active : Bool) (reason : String) (nct : Option TimeManagement.LocalDT) :
    List (Nat × String) :=
  match alookup locationUsers location with
  | none => []
  | some us => us.map (fun uid => (uid, statusMessage location is_active reason nct))

/-- One `notify_status_change` invocation made by
`check_and_update_schedules`: the lowered location key and the arguments
passed along. -/
structure Broadcast where
  location : String
  is_active : Bool
  reason : String
  next_change : TimeManagement.LocalDT
deriving DecidableEq

/-- The transition test of `check_and_update_schedules` for one pair: the
lowered location has a `LOCATION_STATUS` entry and its recorded
`is_active` differs from the freshly computed one. -/
def updCond (fresh : String → TimeManagement.ActiveResult)
    (status : List (String × LocStatus)) (p : String × String) : Bool :=
  match alookup status (lowerStr p.2) with
  | some r => r.is_active != (fresh p.2).is_active
  | none => false

/-- The body of the first loop of `check_and_update_schedules`: record the
fresh `(is_active, reason, next_change_time)` triple in `location_updates`
under the lowered key when the transition test holds. -/
def updStep (fresh : String → TimeManagement.ActiveResult)
    (status : List (String × LocStatus))
    (upd : List (String × TimeManagement.ActiveResult)) (p : String × String) :
    List (String × TimeManagement.ActiveResult) :=
  if updCond fresh status p then aset upd (lowerStr p.2) (fresh p.2) else upd

/-- The `location_updates` dictionary after the first loop of
`check_and_update_schedules` over `full_pairs`. -/
def buildUpdates (fresh : String → TimeManagement.ActiveResult)
    (status : List (String × LocStatus)) (fullPairs : List (String × String)) :
    List (String × TimeManagement.ActiveResult) :=
  fullPairs.foldl (updStep fresh status) []

/-- The second loop of `check_and_update_schedules`: for every updated
location store `get_monitoring_schedule(location)` (the `schedule` oracle,
applied to the lowered key exactly as the source does) into
`LOCATION_STATUS`. -/
def applySchedules (schedule : String → LocStatus) (status : List (String × LocStatus))
    (upds : List (String × TimeManagement.ActiveResult)) : List (String × LocStatus) :=
  upds.foldl (fun st kv => aset st kv.1 (schedule kv.1)) status

/-- Embedding of `check_and_update_schedules(users, user_pair_map,
full_pairs)`: the new `LOCATION_STATUS` and the list of
`notify_status_change` invocations (one per entry of `location_updates`;
each invocation then messages every subscriber of the location via
`notifyStatusChange`). -/
def checkAndUpdateSchedules (fresh : String → TimeManagement.ActiveResult)
    (schedule : String → LocStatus) (status : List (String × LocStatus))
    (fullPairs : List (String × String)) :
    List (String × LocStatus) × List Broadcast :=
  (applySchedules schedule status (buildUpdates fresh status fullPairs),
    (buildUpdates fresh status fullPairs).map
      (fun kv => ⟨kv.1, kv.2.is_active, kv.2.reason, kv.2.next_change⟩))

/-- One iteration of the main monitoring loop of `new_main.py` (lines
506-511) as far as `LOCATION_STATUS` and status-change broadcasts are
concerned: `generate_pairs_and_log` runs first over the users (refreshing
`LOCATION_STATUS` silently at lines 186-187), then
`check_and_update_schedules` compares the already-refreshed records
against the same fresh values.  Returned: the generator state, the new
`LOCATION_STATUS`, and the broadcasts of the cycle. -/
def monitorCycle (today : Date) (fresh : String → TimeManagement.ActiveResult)
    (schedule : String → LocStatus) (status : List (String × LocStatus))
    (users : List GenUser) (fullPairs : List (String × String)) :
    GenState × List (String × LocStatus) × List Broadcast :=
  let g := generatePairsAndLog today fresh schedule status users
  let c := checkAndUpdateSchedules fresh schedule g.locationStatus fullPairs
  (g, c.1, c.2)

/-- The recorded status at key `K` exists and its `is_active` agrees with
the freshly computed value at that key. -/
def statusAgrees (fresh : String → TimeManagement.ActiveResult) (K : String)
    (ls : List (String × LocStatus)) : Prop :=
  ∃ r, alookup ls K = some r ∧ r.is_active = (fresh K).is_active

end NewMain

namespace TimeManagement

/-- Claim C2 (code bug): the claim states that `is_monitoring_active` and
`get_monitoring_schedule` raise no error for any location and any current
time, in particular on the last day of a month.  The code computes the next
active time with `datetime.replace(day=now.day + 1)`, which raises
`ValueError: day is out of range for month` whenever the local time is in
the evening part of the inactive window (22:00 to midnight) on the last day
of a month.  Failing input: location `melbourne`, local time
2025-01-31 23:00:00; both functions raise instead of returning. -/
theorem c2_monthEnd_raises :
    isMonitoringActive "melbourne" ⟨2025, 1, 31, 23, 0, 0⟩
        = Except.error "day is out of range for month"
      ∧ getMonitoringSchedule "melbourne" ⟨2025, 1, 31, 23, 0, 0⟩
        = Except.error "day is out of range for month" := ⟨rfl, rfl⟩

/-- Claim C3, counterexample: at local time exactly 06:30:00 the code's
condition `current_time <= end_inactive` holds, so `is_monitoring_active`
reports inactive — refuting the claim's "at local time 06:30 returns active
(the end boundary being inclusive on the active side)". -/
theorem c3_boundary_counterexample :
    activeOf (isMonitoringActive "melbourne" ⟨2025, 3, 15, 6, 30, 0⟩) = some false := rfl

/-- Claim C3 as amended: for every location, at local time 23:00 monitoring
is inactive, at 12:00 active, at 06:00 inactive, and at 06:30 inactive —
the 06:30 end boundary is inclusive on the inactive side, per the `<=`
comparison `current_time <= end_inactive`.  (Date fixed to 2025-03-15: the
activity value is independent of the date away from the month-end error of
claim C2.) -/
theorem c3_sample_times_amended (loc : String) :
    activeOf (isMonitoringActive loc ⟨2025, 3, 15, 23, 0, 0⟩) = some false
      ∧ activeOf (isMonitoringActive loc ⟨2025, 3, 15, 12, 0, 0⟩) = some true
      ∧ activeOf (isMonitoringActive loc ⟨2025, 3, 15, 6, 0, 0⟩) = some false
      ∧ activeOf (isMonitoringActive loc ⟨2025, 3, 15, 6, 30, 0⟩) = some false :=
  ⟨rfl, rfl, rfl, rfl⟩

end TimeManagement

namespace Telegram

/-- Claim C9, counterexample: when every attempt fails, `send_message`
sleeps 2 then 4 seconds and gives up — an 8-second backoff sleep never
occurs (the third failed attempt exits the loop without sleeping), refuting
the claimed backoff sequence "2, 4, then 8 seconds"; likewise for
`edit_message`. -/
theorem c9_backoff_counterexample :
    (sendMessage (fun _ => (none : Option Nat))) = (none, 3, [2, 4])
      ∧ ¬ (8 ∈ (sendMessage (fun _ => (none : Option Nat))).2.2)
      ∧ (editMessage (fun _ => false)) = (false, 3, [2, 4])
      ∧ ¬ (8 ∈ (editMessage (fun _ => false)).2.2) :=
  ⟨rfl, by decide, rfl, by decide⟩

/-- Claim C9 as amended: `send_message` and `edit_message` make at most 3
attempts, sleeping 2 then 4 seconds after the first and second failed
attempts (no sleep follows the third attempt, so an 8-second backoff never
occurs); `send_message` returns the message handle on the first success
and `None` after all attempts fail, `edit_message` returns `True` on the
first success and `False` after all attempts fail, and — the model being a
total function of the transport outcomes — the caught `TelegramError` is
never propagated.  The four-way disjunctions exhaustively characterise
every possible run of each function. -/
theorem c9_retry_behaviour_amended (t : Nat → Option Nat) (u : Nat → Bool) :
    ((sendMessage t).2.1 ≤ 3 ∧ (editMessage u).2.1 ≤ 3)
    ∧ ((∃ m, t 0 = some m ∧ sendMessage t = (some m, 1, []))
       ∨ (t 0 = none ∧ ∃ m, t 1 = some m ∧ sendMessage t = (some m, 2, [2]))
       ∨ (t 0 = none ∧ t 1 = none ∧ ∃ m, t 2 = some m ∧ sendMessage t = (some m, 3, [2, 4]))
       ∨ (t 0 = none ∧ t 1 = none ∧ t 2 = none ∧ sendMessage t = (none, 3, [2, 4])))
    ∧ ((u 0 = true ∧ editMessage u = (true, 1, []))
       ∨ (u 0 = false ∧ u 1 = true ∧ editMessage u = (true, 2, [2]))
       ∨ (u 0 = false ∧ u 1 = false ∧ u 2 = true ∧ editMessage u = (true, 3, [2, 4]))
       ∨ (u 0 = false ∧ u 1 = false ∧ u 2 = false ∧ editMessage u = (false, 3, [2, 4]))) := by
  rcases h0 : t 0 with _ | m0 <;> rcases h1 : t 1 with _ | m1 <;> rcases h2 : t 2 with _ | m2 <;>
    rcases hu0 : u 0 <;> rcases hu1 : u 1 <;> rcases hu2 : u 2 <;>
    simp [sendMessage, editMessage, runAttempts, h0, h1, h2, hu0, hu1, hu2]

end Telegram

namespace NewMain

theorem leadsWith_iff (n h : List Char) : leadsWith n h = true ↔ ∃ r, h = n ++ r := by
  induction n generalizing h with
  | nil => simp [leadsWith]
  | cons a xs ih =>
    cases h with
    | nil => simp [leadsWith]
    | cons b ys =>
      simp only [leadsWith, Bool.and_eq_true, beq_iff_eq, ih, List.cons_append, List.cons.injEq]
      constructor
      · rintro ⟨rfl, r, rfl⟩; exact ⟨r, rfl, rfl⟩
      · rintro ⟨r, rfl, rfl⟩; exact ⟨rfl, r, rfl⟩

theorem containsSeq_iff (h n : List Char) :
    containsSeq h n = true ↔ ∃ l r, h = l ++ n ++ r := by
  induction h with
  | nil =>
    simp only [containsSeq, List.isEmpty_iff]
    constructor
    · rintro rfl; exact ⟨[], [], rfl⟩
    · rintro ⟨l, r, hh⟩
      rcases List.append_eq_nil.mp (List.append_eq_nil.mp hh.symm).1 with ⟨-, h2⟩
      exact h2
  | cons c t ih =>
    simp only [containsSeq, Bool.or_eq_true, leadsWith_iff, ih]
    constructor
    · rintro (⟨r, hr⟩ | ⟨l, r, rfl⟩)
      · exact ⟨[], r, by simp [hr]⟩
      · exact ⟨c :: l, r, by simp⟩
    · rintro ⟨l, r, hh⟩
      cases l with
      | nil => exact Or.inl ⟨r, by simpa using hh⟩
      | cons x l2 =>
        simp only [List.cons_append, List.cons.injEq] at hh
        exact Or.inr ⟨l2, r, hh.2⟩

/-- Claim C7: for every subscriber and listing whose title contains one of
the subscriber's excluded words as a case-insensitive substring, the
per-subscriber processing of `check_marketplace_pair` skips the subscriber
before any classification: `product_checker` is not invoked (the `false`
flag) and no message is sent (the `excludedWord` outcome). -/
theorem c7_exclusion (checker : Checker) (title price link : String) (u : SubUser)
    (h : ∃ w ∈ u.excluded_words, ∃ l r, lowerChars title = l ++ lowerChars w ++ r) :
    processUser checker title price link u = (false, UserOutcome.excludedWord) := by
  obtain ⟨w, hw, l, r, hrep⟩ := h
  have hhit : excludedHit u.excluded_words title = true := by
    simp only [excludedHit, List.any_eq_true]
    exact ⟨w, hw, (containsSeq_iff _ _).mpr ⟨l, r, hrep⟩⟩
  simp [processUser, hhit]

/-- Witness for claim C7 at a concrete input: excluded word `IPHONE`,
title `Selling iPhone 12`. -/
theorem c7_witness :
    processUser (fun _ _ _ => ⟨"p", some 1, true, false⟩) "Selling iPhone 12" "$100" "/item/1"
        ⟨7, ["IPHONE"], 0, 0, ⟨false, false, false⟩⟩ = (false, UserOutcome.excludedWord) :=
  c7_exclusion _ _ _ _ _
    ⟨"IPHONE", by simp, "selling ".data, " 12".data, by decide⟩

/-- Claim C6: for a subscriber that passes the exclusion filter, the
classifier is invoked and the mode filters are evaluated in the fixed order
`mode_only_preferred`, `near_good_deals`, `good_deals`; the message is sent
iff every active mode's condition holds (`preferred == 1`, good-or-near
deal, good deal respectively), and the outcome names the first active mode
whose condition fails. -/
theorem c6_mode_filters (checker : Checker) (title price link : String) (u : SubUser)
    (h : ¬ ∃ w ∈ u.excluded_words, ∃ l r, lowerChars title = l ++ lowerChars w ++ r) :
    (processUser checker title price link u).1 = true
    ∧ ((∃ s, (processUser checker title price link u).2 = UserOutcome.send s)
        ↔ ((u.modes.mode_only_preferred = true →
              (checker u.chat_id title price).preferred = some 1)
          ∧ (u.modes.near_good_deals = true →
              ((checker u.chat_id title price).is_good_deal = true
                ∨ (checker u.chat_id title price).near_good_deal = true))
          ∧ (u.modes.good_deals = true → (checker u.chat_id title price).is_good_deal = true)))
    ∧ (u.modes.mode_only_preferred = true →
        (checker u.chat_id title price).preferred ≠ some 1 →
        (processUser checker title price link u).2 = UserOutcome.skipNotPreferred)
    ∧ ((u.modes.mode_only_preferred = true → (checker u.chat_id title price).preferred = some 1) →
        u.modes.near_good_deals = true →
        (checker u.chat_id title price).is_good_deal = false →
        (checker u.chat_id title price).near_good_deal = false →
        (processUser checker title price link u).2 = UserOutcome.skipNotNearGoodDeal)
    ∧ ((u.modes.mode_only_preferred = true → (checker u.chat_id title price).preferred = some 1) →
        (u.modes.near_good_deals = true →
          ((checker u.chat_id title price).is_good_deal = true
            ∨ (checker u.chat_id title price).near_good_deal = true)) →
        u.modes.good_deals = true →
        (checker u.chat_id title price).is_good_deal = false →
        (processUser checker title price link u).2 = UserOutcome.skipNotGoodDeal) := by
  have hhit : excludedHit u.excluded_words title = false := by
    rw [Bool.eq_false_iff]
    intro hc
    apply h
    simp only [excludedHit, List.any_eq_true] at hc
    obtain ⟨w, hw, hcs⟩ := hc
    obtain ⟨l, r, hrep⟩ := (containsSeq_iff _ _).mp hcs
    exact ⟨w, hw, l, r, hrep⟩
  rcases hm : u.modes with ⟨mop, ngd, gd⟩
  by_cases hp : (checker u.chat_id title price).preferred = some 1 <;>
    cases hg : (checker u.chat_id title price).is_good_deal <;>
    cases hn : (checker u.chat_id title price).near_good_deal <;>
    cases mop <;> cases ngd <;> cases gd <;>
    simp [processUser, hhit, hm, hp, hg, hn]

/-- Witness for claim C6 at a concrete input: `good_deals` mode on,
classification reporting neither a good nor a near-good deal — the
classifier runs but no message is sent. -/
theorem c6_witness :
    ((processUser (fun _ _ _ => ⟨"p", some 0, false, false⟩) "table" "$5" "/x"
        ⟨3, [], 0, 0, ⟨false, false, true⟩⟩).1 = true)
    ∧ ¬ (∃ s, (processUser (fun _ _ _ => ⟨"p", some 0, false, false⟩) "table" "$5" "/x"
        ⟨3, [], 0, 0, ⟨false, false, true⟩⟩).2 = UserOutcome.send s) := by
  have h := c6_mode_filters (fun _ _ _ => ⟨"p", some 0, false, false⟩) "table" "$5" "/x"
    ⟨3, [], 0, 0, ⟨false, false, true⟩⟩ (by simp)
  refine ⟨h.1, fun hs => ?_⟩
  have := (h.2.1.mp hs).2.2 rfl
  simp at this

end NewMain

namespace NewMain

theorem mem_addSeen (s : List String) (l a : String) :
    a ∈ addSeen s l ↔ a = l ∨ a ∈ s := by
  unfold addSeen
  split
  · constructor
    · exact fun h => Or.inr h
    · rintro (rfl | h) <;> assumption
  · simp [or_comm, eq_comm, List.mem_cons]

theorem seen_subset_processListing (checker : Checker) (users : List SubUser)
    (st : PollState) (l : RawListing) (a : String) (h : a ∈ st.seen) :
    a ∈ (processListing checker users st l).1.seen := by
  unfold processListing
  split
  · exact h
  · split
    · exact (mem_addSeen _ _ _).mpr (Or.inr h)
    · split
      · exact h
      · exact (mem_addSeen _ _ _).mpr (Or.inr h)

theorem firstRun_processListing (checker : Checker) (users : List SubUser)
    (st : PollState) (l : RawListing) :
    (processListing checker users st l).1.firstRun = st.firstRun := by
  unfold processListing
  split
  · rfl
  · split
    · rfl
    · split <;> rfl

theorem seen_subset_processListings (checker : Checker) (users : List SubUser)
    (st : PollState) (ls : List RawListing) (a : String) (h : a ∈ st.seen) :
    a ∈ (processListings checker users st ls).1.seen := by
  induction ls generalizing st with
  | nil => exact h
  | cons l ls ih =>
    exact ih _ (seen_subset_processListing checker users st l a h)

theorem processListing_no_send_of_seen (checker : Checker) (users : List SubUser)
    (st : PollState) (l : RawListing) (link : String) (h : link ∈ st.seen) :
    ∀ s ∈ (processListing checker users st l).2, s.link ≠ link := by
  unfold processListing
  split
  · simp
  · split
    · simp
    · split
      · simp
      · intro s hs
        simp only [List.mem_filterMap] at hs
        obtain ⟨u, -, hu⟩ := hs
        rcases hpu : processUser checker l.titlev l.pricev l.linkv u with ⟨b, o⟩
        rw [hpu] at hu
        cases o <;> simp_all
        rename_i _ _ hnotmem
        subst hu
        intro heq
        have heq2 : l.linkv = link := heq
        exact hnotmem (heq2 ▸ h)

theorem processListings_no_send_of_seen (checker : Checker) (users : List SubUser)
    (st : PollState) (ls : List RawListing) (link : String) (h : link ∈ st.seen) :
    ∀ s ∈ (processListings checker users st ls).2, s.link ≠ link := by
  induction ls generalizing st with
  | nil => simp [processListings]
  | cons l ls ih =>
    intro s hs
    simp only [processListings, List.mem_append] at hs
    rcases hs with hs | hs
    · exact processListing_no_send_of_seen checker users st l link h s hs
    · exact ih _ (seen_subset_processListing checker users st l link h) s hs

/-- Claim C4: a listing link already contained in the shared
`seen_listings` set is never notified again for the same work item — over
any number of subsequent polls, no send carries that link (the `link in
seen_listings` guard fires before any subscriber processing, and the set
only grows). -/
theorem c4_seen_never_notified (checker : Checker) (users : List SubUser)
    (st : PollState) (polls : List (List RawListing)) (link : String)
    (h : link ∈ st.seen) :
    ∀ s ∈ (runPolls checker users st polls).2, s.link ≠ link := by
  induction polls generalizing st with
  | nil => simp [runPolls]
  | cons p ps ih =>
    intro s hs
    simp only [runPolls, List.mem_append] at hs
    rcases hs with hs | hs
    · exact processListings_no_send_of_seen checker users st p link h s hs
    · exact ih { (processListings checker users st p).1 with firstRun := false }
        (seen_subset_processListings checker users st p link h) s hs

/-- Witness for claim C4 at a concrete input: the link `/item/1` already in
the seen set, returned again by two subsequent polls — no send for it. -/
theorem c4_witness :
    ("/item/1" ∈ (⟨["/item/1"], false⟩ : PollState).seen)
    ∧ ∀ s ∈ (runPolls (fun _ _ _ => ⟨"p", some 1, true, false⟩)
        [⟨3, [], 0, 0, ⟨false, false, false⟩⟩]
        ⟨["/item/1"], false⟩
        [[⟨some "/item/1", some "$5", some "chair"⟩],
         [⟨some "/item/1", some "$5", some "chair"⟩]]).2,
      s.link ≠ "/item/1" :=
  ⟨by decide, c4_seen_never_notified _ _ _ _ _ (by decide)⟩

/-- Claim C5: on a work item's first run, a poll emits no notification at
all, and every well-formed listing's link is added to `seen_listings`
(the `first_run` branch stores the link and `continue`s before subscriber
filtering or sending). -/
theorem c5_first_run (checker : Checker) (users : List SubUser)
    (st : PollState) (ls : List RawListing) (h : st.firstRun = true) :
    (processPoll checker users st ls).2 = []
    ∧ ∀ l ∈ ls, l.wellFormed = true →
        l.linkv ∈ (processPoll checker users st ls).1.seen := by
  have key : ∀ (st : PollState), st.firstRun = true →
      (processListings checker users st ls).2 = []
      ∧ (processListings checker users st ls).1.firstRun = true
      ∧ ∀ l ∈ ls, l.wellFormed = true →
          l.linkv ∈ (processListings checker users st ls).1.seen := by
    induction ls with
    | nil => intro st hst; exact ⟨rfl, hst, by simp⟩
    | cons l ls ih =>
      intro st hst
      have hfr := firstRun_processListing checker users st l
      have hone : (processListing checker users st l).2 = []
          ∧ (l.wellFormed = true →
              l.linkv ∈ (processListing checker users st l).1.seen) := by
        unfold processListing
        split
        · rename_i hw
          refine ⟨rfl, fun hw2 => ?_⟩
          rw [hw2] at hw
          simp at hw
        · rw [hst]
          exact ⟨rfl, fun _ => (mem_addSeen _ _ _).mpr (Or.inl rfl)⟩
      obtain ⟨hrest1, hrest2, hrest3⟩ := ih (processListing checker users st l).1 (hfr.trans hst)
      refine ⟨?_, hrest2, ?_⟩
      · simp only [processListings, hrest1, hone.1, List.nil_append]
      · intro l2 hl2 hwf
        rcases hl2 with _ | hl2
        · exact seen_subset_processListings checker users _ ls _ (hone.2 hwf)
        · exact hrest3 l2 (by assumption) hwf
  obtain ⟨h1, -, h3⟩ := key st h
  exact ⟨h1, h3⟩

/-- Witness for claim C5 at a concrete input: a first-run poll over one
well-formed listing sends nothing and stores the link. -/
theorem c5_witness :
    (processPoll (fun _ _ _ => ⟨"p", some 1, true, false⟩)
        [⟨3, [], 0, 0, ⟨false, false, false⟩⟩]
        ⟨[], true⟩ [⟨some "/item/9", some "$5", some "chair"⟩]).2 = []
    ∧ "/item/9" ∈ (processPoll (fun _ _ _ => ⟨"p", some 1, true, false⟩)
        [⟨3, [], 0, 0, ⟨false, false, false⟩⟩]
        ⟨[], true⟩ [⟨some "/item/9", some "$5", some "chair"⟩]).1.seen := by
  have h := c5_first_run (fun _ _ _ => ⟨"p", some 1, true, false⟩)
    [⟨3, [], 0, 0, ⟨false, false, false⟩⟩]
    ⟨[], true⟩ [⟨some "/item/9", some "$5", some "chair"⟩] rfl
  exact ⟨h.1, h.2 ⟨some "/item/9", some "$5", some "chair"⟩ (by simp) (by decide)⟩

end NewMain

namespace NewMain

theorem alookup_aset {κ α : Type} [DecidableEq κ] (m : List (κ × α)) (k k' : κ) (v : α) :
    alookup (aset m k v) k' = if k = k' then some v else alookup m k' := by
  induction m with
  | nil => simp [aset, alookup]
  | cons p t ih =>
    obtain ⟨k0, v0⟩ := p
    by_cases h0 : k0 = k
    · subst h0
      by_cases h1 : k0 = k'
      · subst h1; simp [aset, alookup]
      · simp [aset, alookup, h1]
    · by_cases h1 : k0 = k'
      · subst h1
        have hne : ¬ k = k0 := fun hc => h0 hc.symm
        simp [aset, alookup, h0, hne]
      · simp [aset, alookup, h0, h1, ih]

theorem mem_addPair (s : List (String × String)) (p a : String × String) :
    a ∈ addPair s p ↔ a ∈ s ∨ a = p := by
  unfold addPair
  split
  · constructor
    · exact fun h => Or.inl h
    · rintro (h | rfl) <;> assumption
  · simp [List.mem_append]

theorem configsOf_addConfig (m : List ((String × String) × List SubUser))
    (p q : String × String) (c : SubUser) :
    configsOf (addConfig m p c) q
      = if p = q then configsOf m q ++ [c] else configsOf m q := by
  unfold addConfig configsOf
  rcases h : alookup m p with _ | cs
  · rw [alookup_aset]
    split
    · rename_i hpq; rw [← hpq, h]; rfl
    · rfl
  · rw [alookup_aset]
    split
    · rename_i hpq; rw [← hpq, h]; rfl
    · rfl

theorem pairs_mono_step (fresh : String → TimeManagement.ActiveResult)
    (schedule : String → LocStatus) (u : GenUser) (st : GenState) (kw : String)
    (p : String × String) (h : p ∈ st.pairs) :
    p ∈ (genKeywordStep fresh schedule u st kw).pairs :=
  (mem_addPair _ _ _).mpr (Or.inl h)

theorem configs_mono_step (fresh : String → TimeManagement.ActiveResult)
    (schedule : String → LocStatus) (u : GenUser) (st : GenState) (kw : String)
    (q : String × String) (c : SubUser) (h : c ∈ configsOf st.userPairMap q) :
    c ∈ configsOf (genKeywordStep fresh schedule u st kw).userPairMap q := by
  unfold genKeywordStep
  rw [configsOf_addConfig]
  split
  · exact List.mem_append_left _ h
  · exact h

theorem pairs_mono_fold (fresh : String → TimeManagement.ActiveResult)
    (schedule : String → LocStatus) (u : GenUser) (kws : List String) (st : GenState)
    (p : String × String) (h : p ∈ st.pairs) :
    p ∈ (kws.foldl (genKeywordStep fresh schedule u) st).pairs := by
  induction kws generalizing st with
  | nil => exact h
  | cons k t ih => exact ih _ (pairs_mono_step fresh schedule u st k p h)

theorem configs_mono_fold (fresh : String → TimeManagement.ActiveResult)
    (schedule : String → LocStatus) (u : GenUser) (kws : List String) (st : GenState)
    (q : String × String) (c : SubUser) (h : c ∈ configsOf st.userPairMap q) :
    c ∈ configsOf (kws.foldl (genKeywordStep fresh schedule u) st).userPairMap q := by
  induction kws generalizing st with
  | nil => exact h
  | cons k t ih => exact ih _ (configs_mono_step fresh schedule u st k q c h)

theorem fold_adds_pair_config (fresh : String → TimeManagement.ActiveResult)
    (schedule : String → LocStatus) (u : GenUser) (kws : List String) (st : GenState)
    (kw : String) (h : kw ∈ kws) :
    (kw, u.location) ∈ (kws.foldl (genKeywordStep fresh schedule u) st).pairs
    ∧ mkConfig u ∈
        configsOf (kws.foldl (genKeywordStep fresh schedule u) st).userPairMap
          (kw, u.location) := by
  induction kws generalizing st with
  | nil => cases h
  | cons k t ih =>
    rcases List.mem_cons.mp h with rfl | h
    · constructor
      · exact pairs_mono_fold fresh schedule u t _ _
          ((mem_addPair _ _ _).mpr (Or.inr rfl))
      · refine configs_mono_fold fresh schedule u t _ _ _ ?_
        show mkConfig u ∈ configsOf (genKeywordStep fresh schedule u st kw).userPairMap _
        unfold genKeywordStep
        rw [configsOf_addConfig, if_pos rfl]
        exact List.mem_append_right _ (List.mem_singleton.mpr rfl)
    · exact ih _ h

/-- Claim C8: `generate_pairs_and_log` contributes a user's keyword pairs
and subscriber config exactly when the activation flag is set and the
expiry date is not strictly before today (calendar-date comparison).  An
ineligible user leaves the whole state untouched; an eligible user gets,
for every keyword, the pair into the `pairs` set and their config appended
under the pair in `user_pair_map`.  Stated at the per-user step `genStep`
over an arbitrary prior state, which covers any position in the user
loop. -/
theorem c8_eligibility (today : Date) (fresh : String → TimeManagement.ActiveResult)
    (schedule : String → LocStatus) (st : GenState) (u : GenUser) :
    (¬ (u.activation_status = true ∧ dateLt u.expiry_date today = false) →
        genStep today fresh schedule st u = st)
    ∧ ((u.activation_status = true ∧ dateLt u.expiry_date today = false) →
        ∀ kw ∈ u.keywords,
          (kw, u.location) ∈ (genStep today fresh schedule st u).pairs
          ∧ mkConfig u ∈
              configsOf (genStep today fresh schedule st u).userPairMap (kw, u.location)) := by
  constructor
  · intro h
    unfold genStep
    rcases hact : u.activation_status with _ | _
    · simp
    · rcases hlt : dateLt u.expiry_date today with _ | _
      · exact absurd ⟨hact, hlt⟩ h
      · simp
  · rintro ⟨hact, hlt⟩ kw hkw
    unfold genStep
    rw [hact, hlt]
    simp only [Bool.not_true, Bool.false_or, if_false]
    exact fold_adds_pair_config fresh schedule u u.keywords _ kw hkw

/-- Witness for claim C8 at a concrete input: an active, unexpired user
with one keyword contributes their pair and config. -/
theorem c8_witness :
    ((⟨"ipad", "Melbourne"⟩ : String × String) ∈
        (genStep ⟨2025, 10, 12⟩ (fun _ => ⟨true, "day", ⟨2025, 10, 12, 22, 0, 0⟩⟩)
          (fun _ => ⟨true, "n", "a"⟩) ⟨[], [], [], [], []⟩
          ⟨7, true, ⟨2026, 1, 1⟩, ["ipad"], "Melbourne", [], 0, 0,
            ⟨false, false, false⟩⟩).pairs)
    ∧ mkConfig ⟨7, true, ⟨2026, 1, 1⟩, ["ipad"], "Melbourne", [], 0, 0,
          ⟨false, false, false⟩⟩ ∈
        configsOf (genStep ⟨2025, 10, 12⟩ (fun _ => ⟨true, "day", ⟨2025, 10, 12, 22, 0, 0⟩⟩)
          (fun _ => ⟨true, "n", "a"⟩) ⟨[], [], [], [], []⟩
          ⟨7, true, ⟨2026, 1, 1⟩, ["ipad"], "Melbourne", [], 0, 0,
            ⟨false, false, false⟩⟩).userPairMap ⟨"ipad", "Melbourne"⟩ :=
  (c8_eligibility ⟨2025, 10, 12⟩ (fun _ => ⟨true, "day", ⟨2025, 10, 12, 22, 0, 0⟩⟩)
    (fun _ => ⟨true, "n", "a"⟩) ⟨[], [], [], [], []⟩
    ⟨7, true, ⟨2026, 1, 1⟩, ["ipad"], "Melbourne", [], 0, 0,
      ⟨false, false, false⟩⟩).2 ⟨rfl, rfl⟩ "ipad" (by simp)

theorem mem_usersOf_addLocUser (m : List (String × List Nat)) (k : String) (uid : Nat) :
    uid ∈ usersOf (addLocUser m k uid) k := by
  unfold addLocUser usersOf
  rcases h : alookup m k with _ | us
  · rw [alookup_aset, if_pos rfl]
    simp
  · rw [alookup_aset, if_pos rfl]
    split
    · simpa using by assumption
    · simp

/-- Claim C10: an eligible (active, unexpired) user with an empty keyword
list contributes no pair, no active pair and no `user_pair_map` entry —
so no work item ever polls for them — yet their chat id is added to
`LOCATION_USERS` under the lowercased location, and therefore appears among
the recipients of every `notify_status_change` broadcast for that
location. -/
theorem c10_empty_keywords (today : Date) (fresh : String → TimeManagement.ActiveResult)
    (schedule : String → LocStatus) (st : GenState) (u : GenUser)
    (hact : u.activation_status = true) (hexp : dateLt u.expiry_date today = false)
    (hkw : u.keywords = []) :
    (genStep today fresh schedule st u).pairs = st.pairs
    ∧ (genStep today fresh schedule st u).activePairs = st.activePairs
    ∧ (genStep today fresh schedule st u).userPairMap = st.userPairMap
    ∧ u.user_id ∈ usersOf (genStep today fresh schedule st u).locationUsers
        (lowerStr u.location)
    ∧ ∀ (act : Bool) (reason : String) (nct : Option TimeManagement.LocalDT),
        u.user_id ∈ (notifyStatusChange (genStep today fresh schedule st u).locationUsers
            (lowerStr u.location) act reason nct).map Prod.fst := by
  have hg : genStep today fresh schedule st u
      = { st with
            locationUsers := addLocUser st.locationUsers (lowerStr u.location) u.user_id } := by
    unfold genStep
    rw [hact, hexp, hkw]
    rfl
  rw [hg]
  refine ⟨rfl, rfl, rfl, mem_usersOf_addLocUser _ _ _, ?_⟩
  intro act reason nct
  have hm := mem_usersOf_addLocUser st.locationUsers (lowerStr u.location) u.user_id
  unfold notifyStatusChange
  unfold usersOf at hm
  rcases h : alookup (addLocUser st.locationUsers (lowerStr u.location) u.user_id)
      (lowerStr u.location) with _ | us
  · rw [h] at hm; simp at hm
  · rw [h] at hm
    simp only [Option.getD_some] at hm
    simp only [List.map_map]
    simpa using hm

/-- Witness for claim C10 at a concrete input: an eligible user with no
keywords leaves `user_pair_map` empty yet receives the paused broadcast for
their location. -/
theorem c10_witness :
    ((genStep ⟨2025, 10, 12⟩ (fun _ => ⟨true, "day", ⟨2025, 10, 12, 22, 0, 0⟩⟩)
        (fun _ => ⟨true, "n", "a"⟩) ⟨[], [], [], [], []⟩
        ⟨9, true, ⟨2026, 1, 1⟩, [], "Melbourne", [], 0, 0,
          ⟨false, false, false⟩⟩).userPairMap = [])
    ∧ 9 ∈ (notifyStatusChange (genStep ⟨2025, 10, 12⟩
        (fun _ => ⟨true, "day", ⟨2025, 10, 12, 22, 0, 0⟩⟩)
        (fun _ => ⟨true, "n", "a"⟩) ⟨[], [], [], [], []⟩
        ⟨9, true, ⟨2026, 1, 1⟩, [], "Melbourne", [], 0, 0,
          ⟨false, false, false⟩⟩).locationUsers
        (lowerStr "Melbourne") false "paused" none).map Prod.fst := by
  have h := c10_empty_keywords ⟨2025, 10, 12⟩
    (fun _ => ⟨true, "day", ⟨2025, 10, 12, 22, 0, 0⟩⟩)
    (fun _ => ⟨true, "n", "a"⟩) ⟨[], [], [], [], []⟩
    ⟨9, true, ⟨2026, 1, 1⟩, [], "Melbourne", [], 0, 0, ⟨false, false, false⟩⟩
    rfl rfl rfl
  exact ⟨h.2.2.1, h.2.2.2.2 false "paused" none⟩

end NewMain

namespace NewMain

theorem mem_keys_aset {κ α : Type} [DecidableEq κ] (m : List (κ × α)) (k L : κ) (v : α) :
    L ∈ (aset m k v).map Prod.fst ↔ L = k ∨ L ∈ m.map Prod.fst := by
  induction m with
  | nil => simp [aset, eq_comm]
  | cons p t ih =>
    obtain ⟨k0, v0⟩ := p
    by_cases h0 : k0 = k
    · subst h0; simp [aset, eq_comm]
    · simp only [aset, if_neg h0, List.map_cons, List.mem_cons, ih]
      tauto

theorem keys_nodup_aset {κ α : Type} [DecidableEq κ] (m : List (κ × α)) (k : κ) (v : α)
    (h : (m.map Prod.fst).Nodup) : ((aset m k v).map Prod.fst).Nodup := by
  induction m with
  | nil => simp [aset]
  | cons p t ih =>
    obtain ⟨k0, v0⟩ := p
    simp only [List.map_cons, List.nodup_cons] at h
    by_cases h0 : k0 = k
    · subst h0
      have ha : aset ((k0, v0) :: t) k0 v = (k0, v) :: t := by simp [aset]
      rw [ha]
      simpa using h
    · simp only [aset, if_neg h0, List.map_cons, List.nodup_cons]
      refine ⟨fun hc => ?_, ih h.2⟩
      rcases (mem_keys_aset t k k0 v).mp hc with rfl | hc2
      · exact h0 rfl
      · exact h.1 hc2

theorem mem_keys_buildUpdates_fold (fresh : String → TimeManagement.ActiveResult)
    (status : List (String × LocStatus)) (ps : List (String × String))
    (acc : List (String × TimeManagement.ActiveResult)) (L : String) :
    (L ∈ (ps.foldl (updStep fresh status) acc).map Prod.fst)
      ↔ (L ∈ acc.map Prod.fst
          ∨ ∃ p ∈ ps, lowerStr p.2 = L ∧ updCond fresh status p = true) := by
  induction ps generalizing acc with
  | nil => simp
  | cons q qs ih =>
    simp only [List.foldl_cons, ih, List.mem_cons]
    unfold updStep
    cases hc : updCond fresh status q
    · simp only [if_false, Bool.false_eq_true]
      constructor
      · rintro (h | ⟨p, hp, h1, h2⟩)
        · exact Or.inl h
        · exact Or.inr ⟨p, Or.inr hp, h1, h2⟩
      · rintro (h | ⟨p, hp | hp, h1, h2⟩)
        · exact Or.inl h
        · rw [hp] at h2; rw [h2] at hc; cases hc
        · exact Or.inr ⟨p, hp, h1, h2⟩
    · simp only [if_true]
      rw [mem_keys_aset]
      constructor
      · rintro ((rfl | h) | ⟨p, hp, h1, h2⟩)
        · exact Or.inr ⟨q, Or.inl rfl, rfl, hc⟩
        · exact Or.inl h
        · exact Or.inr ⟨p, Or.inr hp, h1, h2⟩
      · rintro (h | ⟨p, hp | hp, h1, h2⟩)
        · exact Or.inl (Or.inr h)
        · subst hp; exact Or.inl (Or.inl h1.symm)
        · exact Or.inr ⟨p, hp, h1, h2⟩

theorem keys_nodup_buildUpdates (fresh : String → TimeManagement.ActiveResult)
    (status : List (String × LocStatus)) (ps : List (String × String)) :
    ((buildUpdates fresh status ps).map Prod.fst).Nodup := by
  unfold buildUpdates
  have key : ∀ (acc : List (String × TimeManagement.ActiveResult)),
      (acc.map Prod.fst).Nodup →
        ((ps.foldl (updStep fresh status) acc).map Prod.fst).Nodup := by
    induction ps with
    | nil => exact fun acc h => h
    | cons q qs ih =>
      intro acc h
      refine ih _ ?_
      unfold updStep
      split
      · exact keys_nodup_aset acc _ _ h
      · exact h
  exact key [] (by simp)

theorem alookup_applySchedules (schedule : String → LocStatus)
    (status : List (String × LocStatus))
    (upds : List (String × TimeManagement.ActiveResult)) (k : String) :
    alookup (applySchedules schedule status upds) k
      = if k ∈ upds.map Prod.fst then some (schedule k) else alookup status k := by
  induction upds generalizing status with
  | nil => simp [applySchedules]
  | cons kv t ih =>
    obtain ⟨k0, v0⟩ := kv
    simp only [applySchedules, List.foldl_cons] at *
    rw [ih]
    by_cases hk : k ∈ t.map Prod.fst
    · rw [if_pos hk, if_pos (by simp [hk])]
    · rw [if_neg hk, alookup_aset]
      by_cases h0 : k0 = k
      · subst h0; rw [if_pos rfl, if_pos (by simp)]
      · have hnm : ¬ k ∈ List.map Prod.fst ((k0, v0) :: t) := by
          simp only [List.map_cons, List.mem_cons]
          rintro (h | h)
          · exact h0 h.symm
          · exact hk h
        rw [if_neg h0, if_neg hnm]

theorem count_broadcasts (m : List (String × TimeManagement.ActiveResult)) (L : String)
    (hnd : (m.map Prod.fst).Nodup) :
    ((m.map (fun kv =>
        (⟨kv.1, kv.2.is_active, kv.2.reason, kv.2.next_change⟩ : Broadcast))).filter
          (fun b => b.location == L)).length
      = if L ∈ m.map Prod.fst then 1 else 0 := by
  induction m with
  | nil => simp
  | cons kv t ih =>
    obtain ⟨k0, v0⟩ := kv
    simp only [List.map_cons, List.nodup_cons] at hnd
    by_cases h0 : k0 = L
    · subst h0
      have ht : (k0 ∈ List.map Prod.fst t) = False := by simp [hnd.1]
      simp [List.filter_cons, ih hnd.2, ht]
    · have h0s : ¬ L = k0 := fun h => h0 h.symm
      have hb : ((⟨k0, v0.is_active, v0.reason, v0.next_change⟩ : Broadcast).location == L)
          = false := by simp [h0]
      simp only [List.map_cons, List.filter_cons, hb, Bool.false_eq_true, if_false, ih hnd.2]
      by_cases hL : L ∈ List.map Prod.fst t
      · rw [if_pos hL, if_pos (List.mem_cons_of_mem _ hL)]
      · have hnc : ¬ L ∈ k0 :: List.map Prod.fst t := by
          rw [List.mem_cons]
          rintro (h | h)
          · exact h0s h
          · exact hL h
        rw [if_neg hL, if_neg hnc]

theorem foldl_updStep_nil (fresh : String → TimeManagement.ActiveResult)
    (status : List (String × LocStatus)) (ps : List (String × String))
    (h : ∀ p ∈ ps, updCond fresh status p = false) :
    ps.foldl (updStep fresh status) [] = [] := by
  induction ps with
  | nil => rfl
  | cons q qs ih =>
    rw [List.foldl_cons]
    have hq : updStep fresh status [] q = [] := by
      unfold updStep
      rw [h q (by simp)]
      rfl
    rw [hq]
    exact ih (fun p hp => h p (List.mem_cons_of_mem _ hp))

theorem statusAgrees_statusUpd_self (fresh : String → TimeManagement.ActiveResult)
    (schedule : String → LocStatus) (loc : String) (ls : List (String × LocStatus))
    (hfresh : ∀ l, fresh (lowerStr l) = fresh l)
    (hcoh : ∀ l, (schedule l).is_active = (fresh l).is_active) :
    statusAgrees fresh (lowerStr loc) (statusUpd fresh schedule loc ls) := by
  unfold statusUpd statusAgrees
  rcases h : alookup ls (lowerStr loc) with _ | r
  · refine ⟨schedule loc, ?_, ?_⟩
    · rw [alookup_aset, if_pos rfl]
    · rw [hcoh loc, hfresh loc]
  · cases hb : (r.is_active != (fresh loc).is_active)
    · simp only [hb, Bool.false_eq_true, if_false]
      refine ⟨r, h, ?_⟩
      have he : r.is_active = (fresh loc).is_active := bne_eq_false_iff_eq.mp hb
      rw [he, hfresh loc]
    · simp only [hb, if_true]
      refine ⟨schedule loc, ?_, ?_⟩
      · rw [alookup_aset, if_pos rfl]
      · rw [hcoh loc, hfresh loc]

theorem statusAgrees_statusUpd_mono (fresh : String → TimeManagement.ActiveResult)
    (schedule : String → LocStatus) (loc : String) (ls : List (String × LocStatus))
    (K : String)
    (hfresh : ∀ l, fresh (lowerStr l) = fresh l)
    (hcoh : ∀ l, (schedule l).is_active = (fresh l).is_active)
    (h : statusAgrees fresh K ls) :
    statusAgrees fresh K (statusUpd fresh schedule loc ls) := by
  by_cases hK : lowerStr loc = K
  · rw [← hK]
    exact statusAgrees_statusUpd_self fresh schedule loc ls hfresh hcoh
  · obtain ⟨r, hr, ha⟩ := h
    unfold statusUpd
    rcases h2 : alookup ls (lowerStr loc) with _ | r2
    · exact ⟨r, by rw [alookup_aset, if_neg hK]; exact hr, ha⟩
    · cases hb : (r2.is_active != (fresh loc).is_active)
      · simp only [hb, Bool.false_eq_true, if_false]
        exact ⟨r, hr, ha⟩
      · simp only [hb, if_true]
        exact ⟨r, by rw [alookup_aset, if_neg hK]; exact hr, ha⟩

theorem statusAgrees_foldKw_mono (fresh : String → TimeManagement.ActiveResult)
    (schedule : String → LocStatus) (u : GenUser) (kws : List String) (st : GenState)
    (K : String)
    (hfresh : ∀ l, fresh (lowerStr l) = fresh l)
    (hcoh : ∀ l, (schedule l).is_active = (fresh l).is_active)
    (h : statusAgrees fresh K st.locationStatus) :
    statusAgrees fresh K ((kws.foldl (genKeywordStep fresh schedule u) st).locationStatus) := by
  induction kws generalizing st with
  | nil => exact h
  | cons k t ih =>
    refine ih _ ?_
    exact statusAgrees_statusUpd_mono fresh schedule u.location st.locationStatus K hfresh hcoh h

theorem statusAgrees_foldKw_self (fresh : String → TimeManagement.ActiveResult)
    (schedule : String → LocStatus) (u : GenUser) (kws : List String) (st : GenState)
    (hfresh : ∀ l, fresh (lowerStr l) = fresh l)
    (hcoh : ∀ l, (schedule l).is_active = (fresh l).is_active)
    (hne : kws ≠ []) :
    statusAgrees fresh (lowerStr u.location)
      ((kws.foldl (genKeywordStep fresh schedule u) st).locationStatus) := by
  cases kws with
  | nil => exact absurd rfl hne
  | cons k t =>
    rw [List.foldl_cons]
    refine statusAgrees_foldKw_mono fresh schedule u t _ _ hfresh hcoh ?_
    exact statusAgrees_statusUpd_self fresh schedule u.location st.locationStatus hfresh hcoh

theorem statusAgrees_genStep_mono (today : Date)
    (fresh : String → TimeManagement.ActiveResult) (schedule : String → LocStatus)
    (st : GenState) (u : GenUser) (K : String)
    (hfresh : ∀ l, fresh (lowerStr l) = fresh l)
    (hcoh : ∀ l, (schedule l).is_active = (fresh l).is_active)
    (h : statusAgrees fresh K st.locationStatus) :
    statusAgrees fresh K ((genStep today fresh schedule st u).locationStatus) := by
  unfold genStep
  split
  · exact h
  · exact statusAgrees_foldKw_mono fresh schedule u u.keywords _ K hfresh hcoh h

theorem statusAgrees_genStep_self (today : Date)
    (fresh : String → TimeManagement.ActiveResult) (schedule : String → LocStatus)
    (st : GenState) (u : GenUser)
    (hfresh : ∀ l, fresh (lowerStr l) = fresh l)
    (hcoh : ∀ l, (schedule l).is_active = (fresh l).is_active)
    (hact : u.activation_status = true) (hexp : dateLt u.expiry_date today = false)
    (hne : u.keywords ≠ []) :
    statusAgrees fresh (lowerStr u.location)
      ((genStep today fresh schedule st u).locationStatus) := by
  unfold genStep
  rw [hact, hexp]
  simp only [Bool.not_true, Bool.false_or, if_false]
  exact statusAgrees_foldKw_self fresh schedule u u.keywords _ hfresh hcoh hne

theorem statusAgrees_usersFold_mono (today : Date)
    (fresh : String → TimeManagement.ActiveResult) (schedule : String → LocStatus)
    (users : List GenUser) (st : GenState) (K : String)
    (hfresh : ∀ l, fresh (lowerStr l) = fresh l)
    (hcoh : ∀ l, (schedule l).is_active = (fresh l).is_active)
    (h : statusAgrees fresh K st.locationStatus) :
    statusAgrees fresh K
      ((users.foldl (genStep today fresh schedule) st).locationStatus) := by
  induction users generalizing st with
  | nil => exact h
  | cons w ws ih =>
    exact ih _ (statusAgrees_genStep_mono today fresh schedule st w K hfresh hcoh h)

theorem statusAgrees_usersFold (today : Date)
    (fresh : String → TimeManagement.ActiveResult) (schedule : String → LocStatus)
    (users : List GenUser) (st : GenState) (K : String)
    (hfresh : ∀ l, fresh (lowerStr l) = fresh l)
    (hcoh : ∀ l, (schedule l).is_active = (fresh l).is_active)
    (h : ∃ u ∈ users, (u.activation_status = true ∧ dateLt u.expiry_date today = false)
        ∧ lowerStr u.location = K ∧ u.keywords ≠ []) :
    statusAgrees fresh K
      ((users.foldl (genStep today fresh schedule) st).locationStatus) := by
  induction users generalizing st with
  | nil => obtain ⟨u, hu, -⟩ := h; cases hu
  | cons v vs ih =>
    rw [List.foldl_cons]
    obtain ⟨u, hu, helig, hK, hne⟩ := h
    rcases List.mem_cons.mp hu with rfl | hu2
    · refine statusAgrees_usersFold_mono today fresh schedule vs _ K hfresh hcoh ?_
      rw [← hK]
      exact statusAgrees_genStep_self today fresh schedule st u hfresh hcoh helig.1 helig.2 hne
    · exact ih _ ⟨u, hu2, helig, hK, hne⟩

theorem updCond_false_of_agrees (fresh : String → TimeManagement.ActiveResult)
    (ls : List (String × LocStatus)) (p : String × String)
    (hfresh : ∀ l, fresh (lowerStr l) = fresh l)
    (h : statusAgrees fresh (lowerStr p.2) ls) :
    updCond fresh ls p = false := by
  obtain ⟨r, hr, ha⟩ := h
  unfold updCond
  rw [hr]
  show (r.is_active != (fresh p.2).is_active) = false
  rw [ha, hfresh p.2]
  exact bne_self_eq_false _

/-- Claim C1, counterexample: in the program's monitoring cycle
`generate_pairs_and_log` runs before `check_and_update_schedules` and, at
lines 186-187, silently overwrites the recorded `LOCATION_STATUS` entry
with the fresh schedule whenever the recorded `is_active` differs from the
fresh value.  At this concrete input the cycle starts with an actual
active/inactive flip — the recorded status of `melbourne` is active while
the freshly computed value is inactive, witnessed by the transition test
`updCond` being true — yet the cycle emits zero broadcasts, refuting the
claim's "every actual active/inactive flip produces exactly one broadcast
per cycle". -/
theorem c1_cycle_counterexample :
    (updCond (fun _ => ⟨false, "night", ⟨2025, 10, 12, 23, 0, 0⟩⟩)
        [("melbourne", ⟨true, "x", "y"⟩)] ("iphone", "Melbourne") = true)
    ∧ (monitorCycle ⟨2025, 10, 12⟩ (fun _ => ⟨false, "night", ⟨2025, 10, 12, 23, 0, 0⟩⟩)
        (fun _ => ⟨false, "nc", "active"⟩) [("melbourne", ⟨true, "x", "y"⟩)]
        [⟨7, true, ⟨2026, 1, 1⟩, ["iphone"], "Melbourne", [], 0, 0,
          ⟨false, false, false⟩⟩]
        [("iphone", "Melbourne")]).2.2 = [] := ⟨rfl, rfl⟩

/-- Claim C1 as amended.  Within one invocation of
`check_and_update_schedules` over the recorded `LOCATION_STATUS`, a
location receives exactly one status-change broadcast when some monitored
pair maps to it, it has a recorded entry, and the recorded `is_active`
differs from the freshly computed one — and zero broadcasts otherwise (in
particular when the values agree); an immediate repeat on the updated
status with the same computed values emits zero broadcasts.  In the
program's full monitoring cycle, however, `generate_pairs_and_log` runs
first and silently refreshes the recorded status, so when every monitored
pair's location belongs to an eligible (active, unexpired) user with at
least one keyword, an actual active/inactive flip produces zero broadcasts
in that cycle, not one.  The hypotheses say the fresh value is
case-insensitive in the location and the stored schedule's `is_active`
agrees with the fresh value at the same instant — both true of
`is_monitoring_active` and `get_monitoring_schedule`. -/
theorem c1_broadcasts_amended (today : Date) (fresh : String → TimeManagement.ActiveResult)
    (schedule : String → LocStatus) (status : List (String × LocStatus))
    (users : List GenUser) (fullPairs : List (String × String)) (L : String)
    (hfresh : ∀ l, fresh (lowerStr l) = fresh l)
    (hcoh : ∀ l, (schedule l).is_active = (fresh l).is_active) :
    (((checkAndUpdateSchedules fresh schedule status fullPairs).2.filter
        (fun b => b.location == L)).length
      = if fullPairs.any (fun p => lowerStr p.2 == L && updCond fresh status p) = true
        then 1 else 0)
    ∧ (checkAndUpdateSchedules fresh schedule
        (checkAndUpdateSchedules fresh schedule status fullPairs).1 fullPairs).2 = []
    ∧ ((∀ p ∈ fullPairs, ∃ u ∈ users,
          (u.activation_status = true ∧ dateLt u.expiry_date today = false)
          ∧ lowerStr u.location = lowerStr p.2 ∧ u.keywords ≠ []) →
        (monitorCycle today fresh schedule status users fullPairs).2.2 = []) := by
  refine ⟨?_, ?_, ?_⟩
  · have hnd := keys_nodup_buildUpdates fresh status fullPairs
    have hc := count_broadcasts (buildUpdates fresh status fullPairs) L hnd
    rw [show (checkAndUpdateSchedules fresh schedule status fullPairs).2
        = (buildUpdates fresh status fullPairs).map
            (fun kv => (⟨kv.1, kv.2.is_active, kv.2.reason, kv.2.next_change⟩ : Broadcast))
        from rfl]
    rw [hc]
    have hiff : (L ∈ (buildUpdates fresh status fullPairs).map Prod.fst)
        ↔ (fullPairs.any (fun p => lowerStr p.2 == L && updCond fresh status p) = true) := by
      rw [show buildUpdates fresh status fullPairs
          = fullPairs.foldl (updStep fresh status) [] from rfl]
      rw [mem_keys_buildUpdates_fold]
      simp only [List.map_nil, List.not_mem_nil, false_or]
      rw [List.any_eq_true]
      constructor
      · rintro ⟨p, hp, h1, h2⟩
        exact ⟨p, hp, by simp [h1, h2]⟩
      · rintro ⟨p, hp, h⟩
        simp only [Bool.and_eq_true, beq_iff_eq] at h
        exact ⟨p, hp, h.1, h.2⟩
    by_cases hL : L ∈ (buildUpdates fresh status fullPairs).map Prod.fst
    · rw [if_pos hL, if_pos (hiff.mp hL)]
    · rw [if_neg hL, if_neg (fun h => hL (hiff.mpr h))]
  · show (buildUpdates fresh
        (applySchedules schedule status (buildUpdates fresh status fullPairs))
        fullPairs).map _ = []
    rw [show buildUpdates fresh
        (applySchedules schedule status (buildUpdates fresh status fullPairs)) fullPairs
        = fullPairs.foldl (updStep fresh
            (applySchedules schedule status (buildUpdates fresh status fullPairs))) []
        from rfl]
    rw [foldl_updStep_nil]
    · rfl
    · intro p hp
      have hl := alookup_applySchedules schedule status
        (buildUpdates fresh status fullPairs) (lowerStr p.2)
      by_cases hk : lowerStr p.2 ∈ (buildUpdates fresh status fullPairs).map Prod.fst
      · rw [if_pos hk] at hl
        unfold updCond
        rw [hl]
        show ((schedule (lowerStr p.2)).is_active != (fresh p.2).is_active) = false
        rw [hcoh (lowerStr p.2), hfresh p.2]
        exact bne_self_eq_false _
      · rw [if_neg hk] at hl
        have heq : updCond fresh
            (applySchedules schedule status (buildUpdates fresh status fullPairs)) p
            = updCond fresh status p := by
          unfold updCond
          rw [hl]
        rw [heq]
        cases hcond : updCond fresh status p
        · rfl
        · exfalso
          apply hk
          rw [show buildUpdates fresh status fullPairs
              = fullPairs.foldl (updStep fresh status) [] from rfl]
          exact (mem_keys_buildUpdates_fold fresh status fullPairs [] (lowerStr p.2)).mpr
            (Or.inr ⟨p, hp, rfl, hcond⟩)
  · intro hcov
    show (buildUpdates fresh
        (generatePairsAndLog today fresh schedule status users).locationStatus
        fullPairs).map _ = []
    rw [show buildUpdates fresh
        (generatePairsAndLog today fresh schedule status users).locationStatus fullPairs
        = fullPairs.foldl (updStep fresh
            (generatePairsAndLog today fresh schedule status users).locationStatus) []
        from rfl]
    rw [foldl_updStep_nil]
    · rfl
    · intro p hp
      refine updCond_false_of_agrees fresh _ p hfresh ?_
      exact statusAgrees_usersFold today fresh schedule users
        ⟨[], [], [], [], status⟩ (lowerStr p.2) hfresh hcoh (hcov p hp)

/-- Witness for claim C1 (amended) at a concrete input: one pair over
location `Melbourne`, recorded status active, freshly computed inactive —
the lone invocation of `check_and_update_schedules` emits exactly one
broadcast, a repeat on the updated status emits none, and the full cycle
(the same flip, but behind `generate_pairs_and_log` for the covering
eligible one-keyword user) emits none. -/
theorem c1_amended_witness :
    (((checkAndUpdateSchedules (fun _ => ⟨false, "night", ⟨2025, 10, 12, 23, 0, 0⟩⟩)
        (fun _ => ⟨false, "nc", "active"⟩)
        [("melbourne", ⟨true, "x", "y"⟩)] [("iphone", "Melbourne")]).2.filter
          (fun b => b.location == "melbourne")).length = 1)
    ∧ (checkAndUpdateSchedules (fun _ => ⟨false, "night", ⟨2025, 10, 12, 23, 0, 0⟩⟩)
        (fun _ => ⟨false, "nc", "active"⟩)
        (checkAndUpdateSchedules (fun _ => ⟨false, "night", ⟨2025, 10, 12, 23, 0, 0⟩⟩)
          (fun _ => ⟨false, "nc", "active"⟩)
          [("melbourne", ⟨true, "x", "y"⟩)] [("iphone", "Melbourne")]).1
        [("iphone", "Melbourne")]).2 = []
    ∧ (monitorCycle ⟨2025, 10, 12⟩ (fun _ => ⟨false, "night", ⟨2025, 10, 12, 23, 0, 0⟩⟩)
        (fun _ => ⟨false, "nc", "active"⟩) [("melbourne", ⟨true, "x", "y"⟩)]
        [⟨7, true, ⟨2026, 1, 1⟩, ["iphone"], "Melbourne", [], 0, 0,
          ⟨false, false, false⟩⟩]
        [("iphone", "Melbourne")]).2.2 = [] := by
  have h := c1_broadcasts_amended ⟨2025, 10, 12⟩
    (fun _ => ⟨false, "night", ⟨2025, 10, 12, 23, 0, 0⟩⟩)
    (fun _ => ⟨false, "nc", "active"⟩) [("melbourne", ⟨true, "x", "y"⟩)]
    [⟨7, true, ⟨2026, 1, 1⟩, ["iphone"], "Melbourne", [], 0, 0, ⟨false, false, false⟩⟩]
    [("iphone", "Melbourne")] "melbourne" (fun l => rfl) (fun l => rfl)
  refine ⟨h.1.trans ?_, h.2.1, h.2.2 ?_⟩
  · rfl
  · intro p hp
    have hp2 : p = ("iphone", "Melbourne") := by simpa using hp
    subst hp2
    exact ⟨⟨7, true, ⟨2026, 1, 1⟩, ["iphone"], "Melbourne", [], 0, 0,
      ⟨false, false, false⟩⟩, by simp, ⟨rfl, rfl⟩, rfl, by simp⟩

end NewMain
